import Mathlib

/-!
Shallow embedding of the matching engine of the imslp repository.

The repository contains several near-duplicate CSV processors.  The claims
point at two of them:

* `src/complete_solutions_processor.py` — `_find_work_mapping`,
  `_is_strong_match`, `read_csv_works`; embedded below in namespace
  `Complete`.
* `src/ultimate_csv_processor.py` — `_find_work_mapping`, `_is_good_match`;
  embedded below in namespace `Ultimate`.

Python string primitives (`str.lower`, `str.replace`, `str.split()`,
`' '.join`, `in` substring test, `str.strip`) are embedded as executable
functions over `List Char` wrapped in `String`, written with structural
recursion so that concrete instances evaluate by `decide`.

The Python dict `self.work_mappings` is embedded as an insertion-ordered
association list `List (String × WorkRecord)`: key membership and `dict[k]`
are `List.lookup`, and `.items()` iteration is iteration over the list.

The one place where the Python source uses floating point is the comparison
`match_ratio >= 0.7` (resp. `>= 0.6`) with
`match_ratio = len(common_words) / len(mapping_words)`.  It is embedded as
the exact integer comparison `7 * len(mapping) ≤ 10 * len(common)` (resp.
`3 * len(mapping) ≤ 5 * len(common)`); lemmas `strong_ratio_iff` /
`good_ratio_iff` prove this equal to the rational statement
`0.7 ≤ common / mapping`.  For the word-set sizes a Python `set` of words of
a key can reach here, the double-precision comparison agrees with the exact
rational one, so the embedding is faithful.
-/

/-- Embedding of Python `str.lower` (ASCII case folding, as used on the
ASCII keys of this repository). -/
def pyLower (s : String) : String := String.mk (s.data.map Char.toLower)

/-- Accumulator version of Python `str.split()`: split on runs of
whitespace, discarding empty fields. -/
def pySplitAux : List Char → List Char → List (List Char)
  | [], acc => if acc.isEmpty then [] else [acc.reverse]
  | c :: rest, acc =>
    if c.isWhitespace then
      if acc.isEmpty then pySplitAux rest [] else acc.reverse :: pySplitAux rest []
    else pySplitAux rest (c :: acc)

/-- Embedding of Python `str.split()` with no argument. -/
def pySplit (s : String) : List String :=
  (pySplitAux s.data []).map String.mk

/-- Embedding of Python `' '.join(words)`. -/
def pyJoin (ws : List String) : String :=
  String.mk (List.intercalate [' '] (ws.map String.data))

/-- Fuelled replacement of every non-overlapping occurrence of `pat`,
scanning left to right, as Python `str.replace` does; the fuel is the
length of the scanned list, which suffices for a non-empty pattern. -/
def replAux : Nat → List Char → List Char → List Char → List Char
  | 0, l, _, _ => l
  | fuel + 1, l, pat, rep =>
    match l with
    | [] => []
    | c :: rest =>
      if pat ≠ [] ∧ pat.isPrefixOf (c :: rest) then
        rep ++ replAux fuel ((c :: rest).drop pat.length) pat rep
      else c :: replAux fuel rest pat rep

/-- Embedding of Python `s.replace(pat, rep)` (all occurrences, left to
right, non-overlapping). -/
def pyReplace (s pat rep : String) : String :=
  String.mk (replAux s.data.length s.data pat.data rep.data)

/-- Embedding of the Python substring test `pat in s`. -/
def pyContains (s pat : String) : Bool :=
  go s.data pat.data
where
  go : List Char → List Char → Bool
    | l, pat =>
      pat.isPrefixOf l ||
        (match l with
         | [] => false
         | _ :: rest => go rest pat)

/-- Embedding of Python `str.strip()` with no argument. -/
def pyStrip (s : String) : String :=
  String.mk (((s.data.dropWhile Char.isWhitespace).reverse.dropWhile Char.isWhitespace).reverse)

/-- Embedding of `set(key.split())`: the set of whitespace-separated words
of a key. -/
def word_set (s : String) : Finset String := (pySplit s).toFinset

/-- One value of the hand-maintained `work_mappings` dictionary: canonical
title, composer, catalog URL and an optional note. -/
structure WorkRecord where
  full_title : String
  composer : String
  imslp_url : String
  note : Option String := none
deriving Repr, DecidableEq

namespace Complete

/-- Stop words discarded by `_is_strong_match` in
`src/complete_solutions_processor.py` (`common_words` in the source). -/
def common_words : Finset String :=
  (["no", "op", "in", "major", "minor", "mvt", "movement"] : List String).toFinset

/-- Embedding of `_is_strong_match` from
`src/complete_solutions_processor.py`: strip the stop words from both word
sets, refuse empty sets, require at least two common words, and require
`len(common)/len(mapping_words) >= 0.7`, embedded exactly as
`7 * len(mapping_words) ≤ 10 * len(common)`. -/
def is_strong_match (search_key mapping_key : String) : Bool :=
  let search_words := word_set search_key \ common_words
  let mapping_words := word_set mapping_key \ common_words
  if search_words.card = 0 ∨ mapping_words.card = 0 then false
  else
    let common := search_words ∩ mapping_words
    if common.card < 2 then false
    else 7 * mapping_words.card ≤ 10 * common.card

/-- The `basic_key` built by `_find_work_mapping` in
`src/complete_solutions_processor.py`: lower-cased `"composer title"`, with
`mvt.`, `mvt`, `movement`, `all movements` removed, `no.`/`op.` contracted
to `no`/`op`, and whitespace collapsed. -/
def basic_key (composer title : String) : String :=
  let k := pyLower composer ++ " " ++ pyLower title
  let k := pyReplace (pyReplace (pyReplace (pyReplace (pyReplace (pyReplace
    k "mvt." "") "mvt" "") "movement" "") "all movements" "") "no." "no") "op." "op"
  pyJoin (pySplit k)

/-- The `key_terms` chain of `_find_work_mapping` in
`src/complete_solutions_processor.py`: one fixed template per recognised
form word of the title. -/
def key_terms (composer title : String) : List String :=
  let title_lower := pyLower title
  let c := pyLower composer
  (if pyContains title_lower "sonata" then [c ++ " piano sonata"] else []) ++
  (if pyContains title_lower "symphony" then [c ++ " symphony"] else []) ++
  (if pyContains title_lower "concerto" then [c ++ " concerto"] else []) ++
  (if pyContains title_lower "trio" then [c ++ " trio"] else []) ++
  (if pyContains title_lower "quartet" then [c ++ " quartet"] else []) ++
  (if pyContains title_lower "suite" then [c ++ " suite"] else []) ++
  (if pyContains title_lower "fugue" || pyContains title_lower "wtc" then
    [c ++ " well-tempered clavier", c ++ " wtc"] else []) ++
  (if pyContains title_lower "brandenburg" then [c ++ " brandenburg"] else []) ++
  (if pyContains title_lower "gavotte" then
    [c ++ " orchestral suite", c ++ " gavottes"] else []) ++
  (if pyContains title_lower "french suite" then [c ++ " french suite"] else []) ++
  (if pyContains title_lower "cello suite" then [c ++ " cello suite"] else []) ++
  (if pyContains title_lower "novelletten" then [c ++ " novelletten"] else []) ++
  (if pyContains title_lower "four seasons" || pyContains title_lower "winter" ||
      pyContains title_lower "summer" then
    [c ++ " winter", c ++ " summer"] else []) ++
  (if pyContains title_lower "anna magdalena" || pyContains title_lower "march in d" then
    [c ++ " anna magdalena"] else [])

/-- The full `search_keys` list of `_find_work_mapping` in
`src/complete_solutions_processor.py`: the basic key followed by the key
terms.  This variant generates no title-only key. -/
def search_keys (composer title : String) : List String :=
  basic_key composer title :: key_terms composer title

/-- The first loop of `_find_work_mapping`: the first search key that is
literally a key of the dictionary wins. -/
def find_exact (work_mappings : List (String × WorkRecord)) (keys : List String) :
    Option WorkRecord :=
  keys.findSome? (fun k => List.lookup k work_mappings)

/-- The second loop of `_find_work_mapping`: for each search key in order,
scan the dictionary items in order and return the first strong match. -/
def find_fuzzy (work_mappings : List (String × WorkRecord)) (keys : List String) :
    Option WorkRecord :=
  keys.findSome? (fun k =>
    work_mappings.findSome? (fun p => if is_strong_match k p.1 then some p.2 else none))

/-- Embedding of `_find_work_mapping` from
`src/complete_solutions_processor.py`: all exact lookups are tried before
any fuzzy scan; `none` embeds Python `None`. -/
def find_work_mapping (work_mappings : List (String × WorkRecord))
    (composer title : String) : Option WorkRecord :=
  match find_exact work_mappings (search_keys composer title) with
  | some m => some m
  | none => find_fuzzy work_mappings (search_keys composer title)

/-- State-passing form of `_find_work_mapping`, threading the
`work_mappings` dictionary through the call the way the Python method reads
`self.work_mappings`; the second component is the dictionary as it stands
after the call. -/
def find_work_mapping_st (work_mappings : List (String × WorkRecord))
    (composer title : String) : Option WorkRecord × List (String × WorkRecord) :=
  match find_exact work_mappings (search_keys composer title) with
  | some m => (some m, work_mappings)
  | none =>
    match find_fuzzy work_mappings (search_keys composer title) with
    | some m => (some m, work_mappings)
    | none => (none, work_mappings)

/-- One element of the `works` list built by `read_csv_works` in
`src/complete_solutions_processor.py`. -/
structure CsvWork where
  original_composer : String
  original_title : String
  csv_row : Nat
  mapped_work : Option WorkRecord
deriving Repr, DecidableEq

/-- The row filter of `read_csv_works`:
`len(row) >= 2 and row[0].strip() and row[1].strip()`. -/
def row_ok (row : List String) : Bool :=
  2 ≤ row.length ∧ pyStrip (row.headD "") ≠ "" ∧ pyStrip (row.getD 1 "") ≠ ""

/-- The `for row_num, row in enumerate(csv_reader, 1)` loop body of
`read_csv_works`, with `row_num` carried explicitly. -/
def read_csv_works_aux (work_mappings : List (String × WorkRecord)) :
    Nat → List (List String) → List CsvWork
  | _, [] => []
  | row_num, row :: rest =>
    if row_ok row then
      { original_composer := pyStrip (row.headD "")
        original_title := pyStrip (row.getD 1 "")
        csv_row := row_num
        mapped_work :=
          find_work_mapping work_mappings (pyStrip (row.headD "")) (pyStrip (row.getD 1 "")) } ::
        read_csv_works_aux work_mappings (row_num + 1) rest
    else read_csv_works_aux work_mappings (row_num + 1) rest

/-- Embedding of `read_csv_works` from
`src/complete_solutions_processor.py`, over the parsed CSV rows.  The
source checks whether the raw first line of the file equals `","`; for a
quote-free CSV that raw line parses to the row `["", ""]`, so the header
test is embedded as `rows.head? = some ["", ""]`.  When it fires, one row
is consumed by `next(csv_reader)` before `enumerate(csv_reader, 1)`
starts counting at 1. -/
def read_csv_works (work_mappings : List (String × WorkRecord))
    (rows : List (List String)) : List CsvWork :=
  read_csv_works_aux work_mappings 1
    (if rows.head? = some ["", ""] then rows.tail else rows)

end Complete

namespace Ultimate

/-- The `basic_key` built by `_find_work_mapping` in
`src/ultimate_csv_processor.py`: lower-cased `"composer title"`, with
`mvt.`, `mvt`, `movement`, `all movements` removed and whitespace
collapsed (no `no.`/`op.` contraction in this variant). -/
def basic_key (composer title : String) : String :=
  let k := pyLower composer ++ " " ++ pyLower title
  let k := pyReplace (pyReplace (pyReplace (pyReplace
    k "mvt." "") "mvt" "") "movement" "") "all movements" ""
  pyJoin (pySplit k)

/-- The `title_only` key of `_find_work_mapping` in
`src/ultimate_csv_processor.py`: the same cleaning applied to the title
alone. -/
def title_only (title : String) : String :=
  let k := pyReplace (pyReplace (pyReplace (pyLower title) "mvt." "") "mvt" "") "movement" ""
  pyJoin (pySplit k)

/-- The `key_words` vocabulary of `_find_work_mapping` in
`src/ultimate_csv_processor.py`. -/
def key_words : List String :=
  ["sonata", "symphony", "concerto", "trio", "quartet", "suite", "prelude",
   "fugue", "variation"]

/-- The full `search_keys` list of `_find_work_mapping` in
`src/ultimate_csv_processor.py`: basic key, then title-only key, then one
`"composer word"` key per vocabulary word occurring in the title. -/
def search_keys (composer title : String) : List String :=
  basic_key composer title :: title_only title ::
    (key_words.filter (fun w => pyContains (pyLower title) w)).map
      (fun w => pyLower composer ++ " " ++ w)

/-- Embedding of `_is_good_match` from `src/ultimate_csv_processor.py`: no
stop-word removal, at least two common words, and
`len(common)/len(mapping_words) >= 0.6`, embedded exactly as
`3 * len(mapping_words) ≤ 5 * len(common)`. -/
def is_good_match (search_key mapping_key : String) : Bool :=
  let search_words := word_set search_key
  let mapping_words := word_set mapping_key
  let common := search_words ∩ mapping_words
  if common.card < 2 then false
  else 3 * mapping_words.card ≤ 5 * common.card

/-- Embedding of `_find_work_mapping` from
`src/ultimate_csv_processor.py`: for each search key in order, first the
direct dictionary lookup, then a fuzzy scan of all items — so a fuzzy hit
of an earlier key precedes an exact hit of a later key. -/
def find_work_mapping (work_mappings : List (String × WorkRecord))
    (composer title : String) : Option WorkRecord :=
  (search_keys composer title).findSome? (fun k =>
    match List.lookup k work_mappings with
    | some m => some m
    | none =>
      work_mappings.findSome? (fun p => if is_good_match k p.1 then some p.2 else none))

end Ultimate

/-- Sample record used by the C1 counterexample (fuzzy hit). -/
def srecA : WorkRecord := { full_title := "Symphony A", composer := "A", imslp_url := "uA" }

/-- Sample record used by the C1 counterexample (exact hit). -/
def srecB : WorkRecord := { full_title := "Symphony B", composer := "B", imslp_url := "uB" }

/-- Reference table used by the C1 counterexample. -/
def stblC1 : List (String × WorkRecord) :=
  [("mozart symphony great", srecA), ("symphony forty", srecB)]

/-- Sample record used by the C1 witness. -/
def srecW1 : WorkRecord := { full_title := "W1", composer := "W1", imslp_url := "w1" }

/-- Sample record used by the C2 counterexample. -/
def srecC2 : WorkRecord := { full_title := "C2", composer := "C2", imslp_url := "c2" }

/-- Sample record used by the C2 witness. -/
def srecW2 : WorkRecord := { full_title := "W2", composer := "W2", imslp_url := "w2" }

/-- Unfolding of `Complete.is_strong_match` with its local bindings
expanded. -/
lemma is_strong_match_def (s m : String) :
    Complete.is_strong_match s m =
      if (word_set s \ Complete.common_words).card = 0 ∨
          (word_set m \ Complete.common_words).card = 0 then false
      else if ((word_set s \ Complete.common_words) ∩
          (word_set m \ Complete.common_words)).card < 2 then false
      else decide (7 * (word_set m \ Complete.common_words).card ≤
        10 * ((word_set s \ Complete.common_words) ∩
          (word_set m \ Complete.common_words)).card) := rfl

/-- Unfolding of `Ultimate.is_good_match` with its local bindings
expanded. -/
lemma is_good_match_def (s m : String) :
    Ultimate.is_good_match s m =
      if ((word_set s) ∩ (word_set m)).card < 2 then false
      else decide (3 * (word_set m).card ≤ 5 * ((word_set s) ∩ (word_set m)).card) := rfl

/-- The integer encoding of the 0.7 ratio test agrees with the rational
reading of the source comparison `len(common)/len(mapping_words) >= 0.7`
whenever the denominator is positive. -/
lemma strong_ratio_iff (c d : Nat) (hd : 0 < d) :
    (7 * d ≤ 10 * c) ↔ (0.7 : ℚ) ≤ (c : ℚ) / (d : ℚ) := by
  rw [le_div_iff₀ (by exact_mod_cast hd : (0 : ℚ) < (d : ℚ))]
  constructor
  · intro h
    have h' : (7 : ℚ) * d ≤ 10 * c := by exact_mod_cast h
    nlinarith
  · intro h
    have h' : (7 : ℚ) * d ≤ 10 * c := by nlinarith
    exact_mod_cast h'

/-- The integer encoding of the 0.6 ratio test agrees with the rational
reading of the source comparison `len(common)/len(mapping_words) >= 0.6`
whenever the denominator is positive. -/
lemma good_ratio_iff (c d : Nat) (hd : 0 < d) :
    (3 * d ≤ 5 * c) ↔ (0.6 : ℚ) ≤ (c : ℚ) / (d : ℚ) := by
  rw [le_div_iff₀ (by exact_mod_cast hd : (0 : ℚ) < (d : ℚ))]
  constructor
  · intro h
    have h' : (3 : ℚ) * d ≤ 5 * c := by exact_mod_cast h
    nlinarith
  · intro h
    have h' : (3 : ℚ) * d ≤ 5 * c := by nlinarith
    exact_mod_cast h'

/-- A `findSome?` scan succeeds as soon as one listed element succeeds. -/
lemma findSome?_isSome_of_mem {α β : Type} (l : List α) (f : α → Option β) (a : α)
    (ha : a ∈ l) (hf : (f a).isSome) : (l.findSome? f).isSome := by
  induction l with
  | nil => cases ha
  | cons x xs ih =>
    rw [List.findSome?_cons]
    cases hx : f x with
    | some b => simp
    | none =>
      rcases List.mem_cons.mp ha with rfl | hmem
      · rw [hx] at hf; simp at hf
      · simpa using ih hmem

/-- A successful `findSome?` scan exhibits a listed element it succeeded
on. -/
lemma exists_of_findSome?_some {α β : Type} (l : List α) (f : α → Option β) (b : β)
    (h : l.findSome? f = some b) : ∃ a ∈ l, f a = some b := by
  induction l with
  | nil => simp [List.findSome?] at h
  | cons x xs ih =>
    rw [List.findSome?_cons] at h
    cases hx : f x with
    | some c =>
      rw [hx] at h
      obtain rfl : c = b := by simpa using h
      exact ⟨x, List.mem_cons_self x xs, hx⟩
    | none =>
      rw [hx] at h
      obtain ⟨a, ha, hfa⟩ := ih h
      exact ⟨a, List.mem_cons_of_mem _ ha, hfa⟩

/-- A strong match requires at least two shared non-stop words. -/
lemma two_le_common_of_strong_match (s m : String)
    (h : Complete.is_strong_match s m = true) :
    2 ≤ ((word_set s \ Complete.common_words) ∩
      (word_set m \ Complete.common_words)).card := by
  rw [is_strong_match_def] at h
  by_cases h0 : (word_set s \ Complete.common_words).card = 0 ∨
      (word_set m \ Complete.common_words).card = 0
  · rw [if_pos h0] at h
    exact absurd h (by simp)
  · rw [if_neg h0] at h
    by_cases hlt : ((word_set s \ Complete.common_words) ∩
        (word_set m \ Complete.common_words)).card < 2
    · rw [if_pos hlt] at h
      exact absurd h (by simp)
    · omega

/-- Positions 0..n of the rows handed to `read_csv_works_aux` with starting
counter `n`: every produced work carries the 1-based position of its source
row within that row list, offset by the starting counter. -/
lemma mem_read_csv_works_aux (tbl : List (String × WorkRecord)) (rows : List (List String))
    (n : Nat) (w : Complete.CsvWork)
    (hw : w ∈ Complete.read_csv_works_aux tbl n rows) :
    n ≤ w.csv_row ∧ ∃ row, rows[w.csv_row - n]? = some row ∧
      Complete.row_ok row = true ∧
      w.original_composer = pyStrip (row.headD "") ∧
      w.original_title = pyStrip (row.getD 1 "") := by
  induction rows generalizing n with
  | nil => simp [Complete.read_csv_works_aux] at hw
  | cons row rest ih =>
    rw [Complete.read_csv_works_aux] at hw
    by_cases hok : Complete.row_ok row = true
    · rw [if_pos hok] at hw
      rcases List.mem_cons.mp hw with rfl | hmem
      · exact ⟨le_refl n, row, by simp, hok, rfl, rfl⟩
      · obtain ⟨hle, r2, hget, hok2, hc2, ht2⟩ := ih (n + 1) hmem
        refine ⟨by omega, r2, ?_, hok2, hc2, ht2⟩
        rw [show w.csv_row - n = (w.csv_row - (n + 1)) + 1 by omega,
          List.getElem?_cons_succ]
        exact hget
    · rw [if_neg hok] at hw
      obtain ⟨hle, r2, hget, hok2, hc2, ht2⟩ := ih (n + 1) hw
      refine ⟨by omega, r2, ?_, hok2, hc2, ht2⟩
      rw [show w.csv_row - n = (w.csv_row - (n + 1)) + 1 by omega,
        List.getElem?_cons_succ]
      exact hget

/-- C1.  The claim as stated fails on `src/ultimate_csv_processor.py`: that
variant interleaves the exact lookup and the fuzzy scan per candidate key,
so the fuzzy hit of candidate Key A (`"mozart symphony forty"` against
table key `"mozart symphony great"`) wins although candidate Key B
(`"symphony forty"`) is exactly present as a table key with a different
record. -/
theorem ultimate_exact_priority_counterexample :
    Ultimate.find_work_mapping stblC1 "mozart" "symphony forty" = some srecA ∧
    "symphony forty" ∈ Ultimate.search_keys "mozart" "symphony forty" ∧
    List.lookup "symphony forty" stblC1 = some srecB ∧
    srecA ≠ srecB := by decide

/-- C1 (amended).  In `src/complete_solutions_processor.py` the claim
holds: whenever any candidate key is exactly present as a table key,
`_find_work_mapping` returns the result of the exact-lookup pass — the
record of the first exactly-present candidate in candidate order — and the
fuzzy pass is never consulted. -/
theorem complete_exact_priority (tbl : List (String × WorkRecord))
    (composer title : String)
    (h : ∃ k ∈ Complete.search_keys composer title, (List.lookup k tbl).isSome) :
    Complete.find_work_mapping tbl composer title =
      Complete.find_exact tbl (Complete.search_keys composer title) := by
  obtain ⟨k, hk, hsome⟩ := h
  have hex : (Complete.find_exact tbl (Complete.search_keys composer title)).isSome :=
    findSome?_isSome_of_mem _ _ _ hk hsome
  obtain ⟨r, hr⟩ := Option.isSome_iff_exists.mp hex
  unfold Complete.find_work_mapping
  rw [hr]

/-- C1 witness: a concrete input whose basic candidate key is exactly
present, on which the exact pass decides the result. -/
theorem complete_exact_priority_witness :
    (∃ k ∈ Complete.search_keys "mozart" "symphony",
      (List.lookup k [("mozart symphony", srecW1)]).isSome) ∧
    Complete.find_work_mapping [("mozart symphony", srecW1)] "mozart" "symphony" =
      Complete.find_exact [("mozart symphony", srecW1)]
        (Complete.search_keys "mozart" "symphony") :=
  ⟨by decide, complete_exact_priority _ _ _ (by decide)⟩

/-- C2.  The claim as stated fails on `_is_good_match` of
`src/ultimate_csv_processor.py`, which intersects raw word sets without
removing the stop words: the table key `"suite no op"` is selected by the
fuzzy path for the input `("no", "op suite")` although every candidate key
shares fewer than two non-stop-word tokens with it. -/
theorem ultimate_fuzzy_min_overlap_counterexample :
    Ultimate.find_work_mapping [("suite no op", srecC2)] "no" "op suite" = some srecC2 ∧
    Ultimate.search_keys "no" "op suite" = ["no op suite", "op suite", "no suite"] ∧
    ((word_set "no op suite" \ Complete.common_words) ∩
      (word_set "suite no op" \ Complete.common_words)).card < 2 ∧
    ((word_set "op suite" \ Complete.common_words) ∩
      (word_set "suite no op" \ Complete.common_words)).card < 2 ∧
    ((word_set "no suite" \ Complete.common_words) ∩
      (word_set "suite no op" \ Complete.common_words)).card < 2 := by decide

/-- C2 (amended).  For the `_is_strong_match` fuzzy pass of
`src/complete_solutions_processor.py` the claim holds: whenever the fuzzy
pass selects a record, it is the record of a table entry whose key shares
at least two non-stop-word tokens with some candidate key. -/
theorem complete_fuzzy_min_overlap (tbl : List (String × WorkRecord))
    (keys : List String) (r : WorkRecord)
    (h : Complete.find_fuzzy tbl keys = some r) :
    ∃ k ∈ keys, ∃ mk, (mk, r) ∈ tbl ∧
      2 ≤ ((word_set k \ Complete.common_words) ∩
        (word_set mk \ Complete.common_words)).card := by
  obtain ⟨k, hk, hinner⟩ := exists_of_findSome?_some _ _ _ h
  obtain ⟨p, hp, hps⟩ := exists_of_findSome?_some _ _ _ hinner
  obtain ⟨mk, rec⟩ := p
  by_cases hsm : Complete.is_strong_match k mk = true
  · rw [if_pos hsm] at hps
    obtain rfl : rec = r := by simpa using hps
    exact ⟨k, hk, mk, hp, two_le_common_of_strong_match k mk hsm⟩
  · rw [if_neg hsm] at hps
    simp at hps

/-- C2 witness: a concrete fuzzy selection, necessarily backed by a
two-word overlap. -/
theorem complete_fuzzy_min_overlap_witness :
    Complete.find_fuzzy [("mozart symphony 40", srecW2)]
      ["mozart symphony great 40"] = some srecW2 ∧
    ∃ k ∈ ["mozart symphony great 40"], ∃ mk,
      (mk, srecW2) ∈ [("mozart symphony 40", srecW2)] ∧
      2 ≤ ((word_set k \ Complete.common_words) ∩
        (word_set mk \ Complete.common_words)).card :=
  ⟨by decide, complete_fuzzy_min_overlap _ _ _ (by decide)⟩

/-- C3.  The claim as stated fails on the sources: `_is_good_match` of
`src/ultimate_csv_processor.py` uses threshold 0.6, so against a mapping
key of `N = 3` non-stop-word tokens a candidate sharing
`ceil(0.7 * 3) - 1 = 2` of them still satisfies the fuzzy test; and even in
`src/complete_solutions_processor.py` (threshold 0.7) the positive half
fails at `N = 1`, where sharing `ceil(0.7) = 1` token is defeated by the
two-common-words floor. -/
theorem threshold_boundary_counterexample :
    Ultimate.is_good_match "aa bb zz" "aa bb cc" = true ∧
    (word_set "aa bb cc" \ Complete.common_words).card = 3 ∧
    ((word_set "aa bb zz" \ Complete.common_words) ∩
      (word_set "aa bb cc" \ Complete.common_words)).card = (7 * 3 + 9) / 10 - 1 ∧
    Complete.is_strong_match "aa" "aa" = false ∧
    (word_set "aa" \ Complete.common_words).card = 1 ∧
    ((word_set "aa" \ Complete.common_words) ∩
      (word_set "aa" \ Complete.common_words)).card = (7 * 1 + 9) / 10 := by decide

/-- C3 (amended).  For `_is_strong_match` of
`src/complete_solutions_processor.py`, whose threshold is 0.7, and for a
mapping key with exactly `N ≥ 2` non-stop-word tokens: a candidate sharing
exactly `ceil(0.7 * N)` of them (written `(7 * N + 9) / 10` in natural
division) satisfies the fuzzy test, and one sharing exactly
`ceil(0.7 * N) - 1` does not. -/
theorem strong_match_threshold_boundary (s m : String) (N : Nat) (hN : 2 ≤ N)
    (hm : (word_set m \ Complete.common_words).card = N) :
    (((word_set s \ Complete.common_words) ∩
        (word_set m \ Complete.common_words)).card = (7 * N + 9) / 10 →
      Complete.is_strong_match s m = true) ∧
    (((word_set s \ Complete.common_words) ∩
        (word_set m \ Complete.common_words)).card = (7 * N + 9) / 10 - 1 →
      Complete.is_strong_match s m = false) := by
  have hsub : ((word_set s \ Complete.common_words) ∩
      (word_set m \ Complete.common_words)).card ≤
      (word_set s \ Complete.common_words).card :=
    Finset.card_le_card Finset.inter_subset_left
  constructor
  · intro hc
    rw [is_strong_match_def]
    rw [if_neg (by omega), if_neg (by omega)]
    simp only [decide_eq_true_eq]
    omega
  · intro hc
    rw [is_strong_match_def]
    by_cases h0 : (word_set s \ Complete.common_words).card = 0 ∨
        (word_set m \ Complete.common_words).card = 0
    · rw [if_pos h0]
    · rw [if_neg h0]
      by_cases hlt : ((word_set s \ Complete.common_words) ∩
          (word_set m \ Complete.common_words)).card < 2
      · rw [if_pos hlt]
      · rw [if_neg hlt]
        simp only [decide_eq_false_iff_not]
        omega

/-- C3 witness: at `N = 3` a candidate sharing all
`ceil(0.7 * 3) = 3` non-stop-word tokens is a strong match. -/
theorem strong_match_threshold_boundary_witness :
    2 ≤ 3 ∧ (word_set "aa bb cc" \ Complete.common_words).card = 3 ∧
    Complete.is_strong_match "aa bb cc" "aa bb cc" = true :=
  ⟨by decide, by decide,
    (strong_match_threshold_boundary "aa bb cc" "aa bb cc" 3 (by decide)
      (by decide)).1 (by decide)⟩

/-- C4.  The claim as stated fails on
`src/complete_solutions_processor.py`: its `_find_work_mapping` generates
only the basic key and the composer-plus-form-word keys, never a
title-only key — for input `("mozart", "symphony")` the cleaned title
`"symphony"` is not among the candidates. -/
theorem title_only_key_counterexample :
    Complete.search_keys "mozart" "symphony" = ["mozart symphony", "mozart symphony"] ∧
    Ultimate.title_only "symphony" = "symphony" ∧
    "symphony" ∉ Complete.search_keys "mozart" "symphony" := by decide

/-- C4 (amended).  In `src/ultimate_csv_processor.py` the claim holds: the
candidate list starts with Key A (the basic key), position 1 is Key B (the
title-only key), and every later candidate is a composer-plus-vocabulary
Key C. -/
theorem ultimate_title_only_key_order (composer title : String) :
    (Ultimate.search_keys composer title)[0]? = some (Ultimate.basic_key composer title) ∧
    (Ultimate.search_keys composer title)[1]? = some (Ultimate.title_only title) ∧
    ∀ k ∈ (Ultimate.search_keys composer title).drop 2,
      ∃ w ∈ Ultimate.key_words, pyContains (pyLower title) w = true ∧
        k = pyLower composer ++ " " ++ w := by
  refine ⟨by simp [Ultimate.search_keys], by simp [Ultimate.search_keys], ?_⟩
  intro k hk
  rw [show (Ultimate.search_keys composer title).drop 2 =
      (Ultimate.key_words.filter (fun w => pyContains (pyLower title) w)).map
        (fun w => pyLower composer ++ " " ++ w) from rfl] at hk
  obtain ⟨w, hw, rfl⟩ := List.mem_map.mp hk
  have h2 := List.mem_filter.mp hw
  exact ⟨w, h2.1, h2.2, rfl⟩

/-- C4 witness: for input `("bach", "moonlight sonata")` the title-only key
sits at position 1 and the third candidate is a composer-plus-form-word
key. -/
theorem ultimate_title_only_key_order_witness :
    (Ultimate.search_keys "bach" "moonlight sonata")[1]? =
      some (Ultimate.title_only "moonlight sonata") ∧
    ∃ w ∈ Ultimate.key_words, pyContains (pyLower "moonlight sonata") w = true ∧
      "bach sonata" = pyLower "bach" ++ " " ++ w :=
  ⟨(ultimate_title_only_key_order "bach" "moonlight sonata").2.1,
    (ultimate_title_only_key_order "bach" "moonlight sonata").2.2
      "bach sonata" (by decide)⟩

/-- C5.  The claim as stated fails on both variants:
`src/complete_solutions_processor.py` emits fixed per-word templates, not
the form word itself (`"sonata"` in the title emits
`"beethoven piano sonata"` while the claimed `"beethoven sonata"` is
absent), and `src/ultimate_csv_processor.py` emits no secondary aliases
(a title containing `"fugue"` does not emit
`"bach well-tempered clavier"`). -/
theorem form_word_key_counterexample :
    Complete.search_keys "beethoven" "moonlight sonata" =
      ["beethoven moonlight sonata", "beethoven piano sonata"] ∧
    "beethoven sonata" ∉ Complete.search_keys "beethoven" "moonlight sonata" ∧
    "bach well-tempered clavier" ∉ Ultimate.search_keys "bach" "fugue" := by decide

/-- C5 (amended).  In `src/ultimate_csv_processor.py`, for every word of
its fixed vocabulary occurring case-insensitively in the title, key
generation emits the lower-cased `"composer word"` candidate key. -/
theorem ultimate_form_word_key (composer title w : String)
    (hw : w ∈ Ultimate.key_words) (hc : pyContains (pyLower title) w = true) :
    pyLower composer ++ " " ++ w ∈ Ultimate.search_keys composer title := by
  unfold Ultimate.search_keys
  refine List.mem_cons.mpr (Or.inr (List.mem_cons.mpr (Or.inr ?_)))
  exact List.mem_map.mpr ⟨w, List.mem_filter.mpr ⟨hw, hc⟩, rfl⟩

/-- C5 witness: `"sonata"` occurs in `"Piano Sonata"`, so the candidate key
`"haydn sonata"` is generated. -/
theorem ultimate_form_word_key_witness :
    pyLower "Haydn" ++ " " ++ "sonata" ∈ Ultimate.search_keys "Haydn" "Piano Sonata" :=
  ultimate_form_word_key "Haydn" "Piano Sonata" "sonata" (by decide) (by decide)

/-- C6.  Matching is deterministic: on a fixed composer, title and
reference table, two invocations of either variant's `_find_work_mapping`
return the same optional record — the embedding is a pure function of its
arguments. -/
theorem find_work_mapping_deterministic (tbl : List (String × WorkRecord))
    (composer title : String) :
    Complete.find_work_mapping tbl composer title =
      Complete.find_work_mapping tbl composer title ∧
    Ultimate.find_work_mapping tbl composer title =
      Ultimate.find_work_mapping tbl composer title :=
  ⟨rfl, rfl⟩

/-- C7.  `_find_work_mapping` is a total function into an option type: on
every input it returns either a record or `none` (the embedding of Python
`None`), and it has no other outcome — in particular no exception path
exists in its translation. -/
theorem find_work_mapping_total (tbl : List (String × WorkRecord))
    (composer title : String) :
    (∃ r, Complete.find_work_mapping tbl composer title = some r) ∨
      Complete.find_work_mapping tbl composer title = none := by
  cases h : Complete.find_work_mapping tbl composer title with
  | some r => exact Or.inl ⟨r, rfl⟩
  | none => exact Or.inr rfl

/-- C8.  The state-passing reading of `_find_work_mapping` returns the
reference table unchanged — every key and record of `work_mappings` is
identical before and after the call — and computes the same result as the
pure reading. -/
theorem find_work_mapping_pure (tbl : List (String × WorkRecord))
    (composer title : String) :
    (Complete.find_work_mapping_st tbl composer title).2 = tbl ∧
    (Complete.find_work_mapping_st tbl composer title).1 =
      Complete.find_work_mapping tbl composer title := by
  unfold Complete.find_work_mapping_st Complete.find_work_mapping
  cases h1 : Complete.find_exact tbl (Complete.search_keys composer title) with
  | some m => simp
  | none =>
    cases h2 : Complete.find_fuzzy tbl (Complete.search_keys composer title) <;> simp

/-- C9.  The claim as stated fails on `read_csv_works` of
`src/complete_solutions_processor.py`: when the leading `","` header row is
skipped, `enumerate(csv_reader, 1)` restarts at 1 on the remaining rows, so
the work parsed from source row 2 carries `csv_row = 1`. -/
theorem csv_row_header_counterexample :
    Complete.read_csv_works [] [["", ""], ["Bach", "Suite"]] =
      [Complete.CsvWork.mk "Bach" "Suite" 1 none] ∧
    ([["", ""], ["Bach", "Suite"]] : List (List String))[1]? = some ["Bach", "Suite"] := by
  decide

/-- C9 (amended).  Every work produced by `read_csv_works` carries the
1-based position of its source row among the rows remaining after the
optional header skip: the row it was parsed from sits at source position
`csv_row` when no header is skipped, and at source position `csv_row + 1`
when the leading `","` header is skipped. -/
theorem csv_row_position (tbl : List (String × WorkRecord))
    (rows : List (List String)) (w : Complete.CsvWork)
    (hw : w ∈ Complete.read_csv_works tbl rows) :
    1 ≤ w.csv_row ∧
      ∃ row, rows[(w.csv_row - 1) +
          (if rows.head? = some ["", ""] then 1 else 0)]? = some row ∧
        Complete.row_ok row = true ∧
        w.original_composer = pyStrip (row.headD "") ∧
        w.original_title = pyStrip (row.getD 1 "") := by
  unfold Complete.read_csv_works at hw
  by_cases hh : rows.head? = some ["", ""]
  · rw [if_pos hh] at hw
    obtain ⟨h1, row, hget, hok, hc, ht⟩ := mem_read_csv_works_aux tbl rows.tail 1 w hw
    refine ⟨h1, row, ?_, hok, hc, ht⟩
    rw [if_pos hh]
    cases rows with
    | nil => simp at hh
    | cons r0 rest => simpa using hget
  · rw [if_neg hh] at hw
    obtain ⟨h1, row, hget, hok, hc, ht⟩ := mem_read_csv_works_aux tbl rows 1 w hw
    refine ⟨h1, row, ?_, hok, hc, ht⟩
    rw [if_neg hh]
    simpa using hget

/-- C9 witness: a single-row file with no header, whose only work carries
`csv_row = 1` and is parsed from source row 1. -/
theorem csv_row_position_witness :
    1 ≤ (Complete.CsvWork.mk "Mozart" "Symphony" 1 none).csv_row ∧
    ∃ row, ([["Mozart", "Symphony"]] : List (List String))[
        ((Complete.CsvWork.mk "Mozart" "Symphony" 1 none).csv_row - 1) +
        (if ([["Mozart", "Symphony"]] : List (List String)).head? = some ["", ""]
          then 1 else 0)]? = some row ∧
      Complete.row_ok row = true ∧
      (Complete.CsvWork.mk "Mozart" "Symphony" 1 none).original_composer =
        pyStrip (row.headD "") ∧
      (Complete.CsvWork.mk "Mozart" "Symphony" 1 none).original_title =
        pyStrip (row.getD 1 "") :=
  csv_row_position [] [["Mozart", "Symphony"]] _ (by decide)

/-- C10.  The ratio denominators of both fuzzy predicates are nonzero
whenever the division is reached: in `_is_good_match` the preceding
two-common-words check bounds the mapping word set from below, and in
`_is_strong_match` the explicit empty-set check does. -/
theorem fuzzy_ratio_divisor_nonzero (search_key mapping_key : String) :
    (¬ ((word_set search_key ∩ word_set mapping_key).card < 2) →
      0 < (word_set mapping_key).card) ∧
    (¬ ((word_set search_key \ Complete.common_words).card = 0 ∨
        (word_set mapping_key \ Complete.common_words).card = 0) →
      0 < (word_set mapping_key \ Complete.common_words).card) := by
  constructor
  · intro h
    have hle : (word_set search_key ∩ word_set mapping_key).card ≤
        (word_set mapping_key).card :=
      Finset.card_le_card Finset.inter_subset_right
    omega
  · intro h
    push_neg at h
    omega

/-- C10 witness: both guards hold on a concrete pair, so both denominators
are positive. -/
theorem fuzzy_ratio_divisor_nonzero_witness :
    0 < (word_set "aa bb").card ∧ 0 < (word_set "aa bb" \ Complete.common_words).card :=
  ⟨(fuzzy_ratio_divisor_nonzero "aa bb" "aa bb").1 (by decide),
    (fuzzy_ratio_divisor_nonzero "aa bb" "aa bb").2 (by decide)⟩
